import Mathlib

/-!
Shallow embedding of the Share-IT secure file sharing backend
(Express/Mongoose server: upload, share page, download/redemption,
and the scheduled expiry sweep), together with proofs of the
specification's claims about the link lifecycle and redemption engine.

Times are modelled as `Nat` milliseconds since the epoch.  The bcrypt
comparison and hash primitives are external collaborators and are
passed in as function parameters (`cmp`, `hashFn`), matching the
spec's Password Verifier component.
-/

namespace SIF

/-- Link status, from the schema enum `['active', 'expired', 'disabled']`. -/
inductive Status
  | active
  | expired
  | disabled
deriving DecidableEq, Repr

/-- One entry of the `downloadHistory` array of the file schema. -/
structure LogEntry where
  downloadedAt : Nat
  ip : String
  country : String
  userAgent : String
deriving DecidableEq, Repr

/-- The embedded `shareStats` sub-document of the file schema. -/
structure ShareStats where
  totalViews : Nat
  uniqueVisitors : Nat
  peakDownloads : Nat
deriving DecidableEq, Repr

/-- A `File` document as defined by `fileSchema`.  `expiresAt` is optional
in the schema (a record may lack it), hence `Option Nat`. -/
structure FileRec where
  name : String
  size : Nat
  path : String
  createdAt : Nat
  expiresIn : String
  expiresAt : Option Nat
  passwordProtected : Bool
  passwordHash : Option String
  downloads : Nat
  maxDownloads : Nat
  status : Status
  fileType : String
  uploadedBy : String
  isPublic : Bool
  downloadHistory : List LogEntry
  shareStats : ShareStats
deriving DecidableEq, Repr

/-- The distinct failure responses of the download endpoint:
404 File not found, 403 File has expired, 403 File expired or inactive,
403 Download limit reached, 401 Invalid password, 404 File missing on disk,
and 500 Download failed (the catch-all for thrown exceptions). -/
inductive DownloadError
  | notFound
  | expired
  | inactive
  | quotaExceeded
  | unauthorized
  | fileMissing
  | serverError
deriving DecidableEq, Repr

/-- Request-origin data consumed by the download endpoint: the request
time and the caller metadata recorded into `downloadHistory`. -/
structure Origin where
  now : Nat
  ip : String
  country : String
  userAgent : String
deriving DecidableEq, Repr

instance {ε α : Type} [DecidableEq ε] [DecidableEq α] :
    DecidableEq (Except ε α) := fun x y =>
  match x, y with
  | .ok a, .ok b =>
    if h : a = b then isTrue (by rw [h])
    else isFalse (by intro he; injection he; exact h (by assumption))
  | .error a, .error b =>
    if h : a = b then isTrue (by rw [h])
    else isFalse (by intro he; injection he; exact h (by assumption))
  | .ok _, .error _ => isFalse (fun he => Except.noConfusion he)
  | .error _, .ok _ => isFalse (fun he => Except.noConfusion he)

/-- Result of one call to the download endpoint: the record state as
persisted when the response is sent, and the response itself
(`ok` carries the storage path handed to `res.download`). -/
structure RedeemResult where
  record : FileRec
  outcome : Except DownloadError String
deriving DecidableEq, Repr

/-! ### Expiry-specification parsing (`calculateExpirationDate`) -/

/-- The keys of the `timeUnits` table: hour, day, week, month. -/
def isUnit (c : Char) : Bool :=
  c = 'h' || c = 'd' || c = 'w' || c = 'm'

/-- Millisecond length of one duration unit, from the `timeUnits` table. -/
def unitMs (c : Char) : Nat :=
  if c = 'h' then 60 * 60 * 1000
  else if c = 'd' then 24 * 60 * 60 * 1000
  else if c = 'w' then 7 * 24 * 60 * 60 * 1000
  else if c = 'm' then 30 * 24 * 60 * 60 * 1000
  else 0

/-- Numeric value of a digit string, as `parseInt` yields on the digits
captured by the regex (idealised to unbounded precision). -/
def digitsToNat (ds : List Char) : Nat :=
  ds.foldl (fun n c => 10 * n + (c.toNat - 48)) 0

/-- First match of the unanchored regex `(\d+)([hdwm])` in a character
list: scan left to right, accumulate a digit run in `acc`; a unit
character directly after a non-empty digit run is a match (amount, unit);
any other character resets the run.  Backtracking inside the digit run
never succeeds (a unit character is not a digit), so the first match is
always a maximal digit run followed by a unit character, which is what
this scan returns. -/
def scanToken (acc : List Char) : List Char → Option (Nat × Char)
  | [] => none
  | c :: rest =>
    if c.isDigit then scanToken (acc ++ [c]) rest
    else if isUnit c && !acc.isEmpty then some (digitsToNat acc, c)
    else scanToken [] rest

/-- `calculateExpirationDate`: resolve the expiry specification against
the clock; an unparseable specification falls back to now + 24 hours. -/
def calculateExpirationDate (now : Nat) (expiresIn : String) : Nat :=
  match scanToken [] expiresIn.data with
  | none => now + 24 * 60 * 60 * 1000
  | some (amount, u) => now + amount * unitMs u

/-! ### The download endpoint (redemption) -/

/-- The guard `file.expiresAt && new Date() > file.expiresAt`: a record
without `expiresAt` is never past expiry; otherwise the comparison is
strict. -/
def isPastExpiry (now : Nat) (f : FileRec) : Bool :=
  match f.expiresAt with
  | some t => decide (t < now)
  | none => false

/-- The password gate of the download endpoint.  `password` is the JSON
body field (`none` = absent); the empty string is falsy in JavaScript, so
it counts as missing.  `cmp` is `bcrypt.compare`.  Calling bcrypt with a
null stored hash throws, which the endpoint's catch turns into a 500
(`serverError`); this is unreachable for records made by the upload
endpoint, which sets the hash exactly when `passwordProtected`. -/
def authorize (cmp : String → String → Bool) (password : Option String)
    (f : FileRec) : Except DownloadError Unit :=
  if f.passwordProtected then
    match password with
    | none => .error .unauthorized
    | some p =>
      if p = "" then .error .unauthorized
      else
        match f.passwordHash with
        | none => .error .serverError
        | some h => if cmp p h then .ok () else .error .unauthorized
  else .ok ()

/-- The commit step of a redemption that passed every check: increment
`downloads`, append the history entry, bump `totalViews`, and raise
`peakDownloads` to the new count when it exceeds the old peak. -/
def commitRecord (o : Origin) (f : FileRec) : FileRec :=
  { f with
    downloads := f.downloads + 1,
    downloadHistory := f.downloadHistory ++
      [{ downloadedAt := o.now, ip := o.ip, country := o.country,
         userAgent := o.userAgent }],
    shareStats :=
      { f.shareStats with
        totalViews := f.shareStats.totalViews + 1,
        peakDownloads :=
          if f.shareStats.peakDownloads < f.downloads + 1 then f.downloads + 1
          else f.shareStats.peakDownloads } }

/-- One call of `POST /files/:id/download` on a found record, checks in
source order: expiry (persisting `status := expired` on failure), status,
quota (persisting `status := expired` on failure), password, then the
commit and save, and only after the save the check that the backing file
exists on disk (`contentPresent`). -/
def redeem (cmp : String → String → Bool) (contentPresent : Bool) (o : Origin)
    (password : Option String) (f : FileRec) : RedeemResult :=
  if isPastExpiry o.now f then
    { record := { f with status := .expired }, outcome := .error .expired }
  else if f.status ≠ .active then
    { record := f, outcome := .error .inactive }
  else if f.maxDownloads ≤ f.downloads then
    { record := { f with status := .expired }, outcome := .error .quotaExceeded }
  else
    match authorize cmp password f with
    | .error e => { record := f, outcome := .error e }
    | .ok _ =>
      if contentPresent then
        { record := commitRecord o f, outcome := .ok f.path }
      else
        { record := commitRecord o f, outcome := .error .fileMissing }

/-! ### Share page, sweep, upload -/

/-- Record effect of `GET /share/:id` on a found record: past expiry the
status is set to `expired` and saved; otherwise `totalViews` is
incremented and saved and the page is served. -/
def sharePage (now : Nat) (f : FileRec) : FileRec :=
  if isPastExpiry now f then { f with status := .expired }
  else
    { f with shareStats :=
        { f.shareStats with totalViews := f.shareStats.totalViews + 1 } }

/-- The selection predicate of the scheduled cleanup query
`{ status: 'active', expiresAt: { $lte: now } }`; a record whose
`expiresAt` is absent is not matched by the `$lte` comparison. -/
def sweepCond (now : Nat) (f : FileRec) : Bool :=
  decide (f.status = .active) &&
    (match f.expiresAt with
     | some t => decide (t ≤ now)
     | none => false)

/-- Record effect of one sweep pass on one record: selected records get
`status := expired` and are saved, others are untouched.  (The optional
content deletion touches only the content store, not the record.) -/
def sweepRecord (now : Nat) (f : FileRec) : FileRec :=
  if sweepCond now f then { f with status := .expired } else f

/-- One run of the scheduled cleanup over the record store. -/
def sweepOnce (now : Nat) (l : List FileRec) : List FileRec :=
  l.map (sweepRecord now)

/-- The record created and saved by `POST /upload`: `hashFn` is the
bcrypt hash; `passwordProtected = !!password` (empty string is falsy);
`expiresAt` comes from `calculateExpirationDate`; schema defaults give
`downloads = 0`, `maxDownloads = 50`, `status = active`, empty history
and zeroed stats. -/
def mkUpload (now : Nat) (name : String) (size : Nat) (path : String)
    (expiresIn : String) (password : Option String) (hashFn : String → String)
    (fileType : String) (isPublic : Bool) (ip : String) : FileRec :=
  { name := name, size := size, path := path, createdAt := now,
    expiresIn := expiresIn,
    expiresAt := some (calculateExpirationDate now expiresIn),
    passwordProtected :=
      (match password with
       | some p => decide (p ≠ "")
       | none => false),
    passwordHash :=
      (match password with
       | some p => if p ≠ "" then some (hashFn p) else none
       | none => none),
    downloads := 0, maxDownloads := 50, status := .active,
    fileType := fileType, uploadedBy := ip, isPublic := isPublic,
    downloadHistory := [],
    shareStats := { totalViews := 0, uniqueVisitors := 0, peakDownloads := 0 } }

/-! ### Reachable record states -/

/-- Record states reachable from creation by the upload endpoint through
sequential applications of the download (redemption), share-page, and
sweep operations. -/
inductive Reachable : FileRec → Prop
  | upload (now : Nat) (name : String) (size : Nat) (path : String)
      (expiresIn : String) (password : Option String)
      (hashFn : String → String) (fileType : String) (isPublic : Bool)
      (ip : String) :
      Reachable (mkUpload now name size path expiresIn password hashFn
        fileType isPublic ip)
  | redeemStep (cmp : String → String → Bool) (cp : Bool) (o : Origin)
      (pw : Option String) (f : FileRec) :
      Reachable f → Reachable (redeem cmp cp o pw f).record
  | shareStep (now : Nat) (f : FileRec) :
      Reachable f → Reachable (sharePage now f)
  | sweepStep (now : Nat) (f : FileRec) :
      Reachable f → Reachable (sweepRecord now f)

/-- The racy interleaving of two concurrent download requests on the same
record: both handlers `findById` the same stored document before either
`save`, each mutates its own in-memory copy, and the saves land in order
(second save wins).  Returns both responses and the final stored record. -/
def raceBothReads (cmp : String → String → Bool) (cp : Bool)
    (o1 o2 : Origin) (pw1 pw2 : Option String) (f : FileRec) :
    Except DownloadError String × Except DownloadError String × FileRec :=
  let r1 := redeem cmp cp o1 pw1 f
  let r2 := redeem cmp cp o2 pw2 f
  (r1.outcome, r2.outcome, r2.record)

/-! ### Structural lemmas -/

/-- Every call of the download endpoint leaves the record untouched, or
only flips its status to `expired`, or (only when the quota check passed)
commits the increment. -/
theorem redeem_record_shape (cmp : String → String → Bool) (cp : Bool)
    (o : Origin) (pw : Option String) (f : FileRec) :
    (redeem cmp cp o pw f).record = f ∨
    (redeem cmp cp o pw f).record = { f with status := Status.expired } ∨
    (f.downloads < f.maxDownloads ∧
      (redeem cmp cp o pw f).record = commitRecord o f) := by
  unfold redeem
  split
  · exact Or.inr (Or.inl rfl)
  · split
    · exact Or.inl rfl
    · split
      · exact Or.inr (Or.inl rfl)
      · rename_i hq
        split
        · exact Or.inl rfl
        · split
          · exact Or.inr (Or.inr ⟨by omega, rfl⟩)
          · exact Or.inr (Or.inr ⟨by omega, rfl⟩)

/-- The password gate produces `ok`, `unauthorized`, or (missing stored
hash on a protected record) the 500 `serverError` — nothing else. -/
theorem authorize_cases (cmp : String → String → Bool) (pw : Option String)
    (f : FileRec) :
    authorize cmp pw f = .ok () ∨
    authorize cmp pw f = .error .unauthorized ∨
    authorize cmp pw f = .error .serverError := by
  unfold authorize
  split
  · split
    · exact Or.inr (Or.inl rfl)
    · split
      · exact Or.inr (Or.inl rfl)
      · split
        · exact Or.inr (Or.inr rfl)
        · split
          · exact Or.inl rfl
          · exact Or.inr (Or.inl rfl)
  · exact Or.inl rfl

theorem redeem_maxDownloads (cmp : String → String → Bool) (cp : Bool)
    (o : Origin) (pw : Option String) (f : FileRec) :
    (redeem cmp cp o pw f).record.maxDownloads = f.maxDownloads := by
  rcases redeem_record_shape cmp cp o pw f with h | h | ⟨_, h⟩ <;>
    simp [h, commitRecord]

theorem sharePage_downloads (now : Nat) (f : FileRec) :
    (sharePage now f).downloads = f.downloads := by
  unfold sharePage; split <;> rfl

theorem sharePage_maxDownloads (now : Nat) (f : FileRec) :
    (sharePage now f).maxDownloads = f.maxDownloads := by
  unfold sharePage; split <;> rfl

theorem sharePage_downloadHistory (now : Nat) (f : FileRec) :
    (sharePage now f).downloadHistory = f.downloadHistory := by
  unfold sharePage; split <;> rfl

theorem sweepRecord_downloads (now : Nat) (f : FileRec) :
    (sweepRecord now f).downloads = f.downloads := by
  unfold sweepRecord; split <;> rfl

theorem sweepRecord_maxDownloads (now : Nat) (f : FileRec) :
    (sweepRecord now f).maxDownloads = f.maxDownloads := by
  unfold sweepRecord; split <;> rfl

theorem sweepRecord_downloadHistory (now : Nat) (f : FileRec) :
    (sweepRecord now f).downloadHistory = f.downloadHistory := by
  unfold sweepRecord; split <;> rfl

/-- The cleanup query predicate, as a proposition. -/
theorem sweepCond_iff (now : Nat) (f : FileRec) :
    sweepCond now f = true ↔
      (f.status = Status.active ∧ ∃ t, f.expiresAt = some t ∧ t ≤ now) := by
  unfold sweepCond
  cases hE : f.expiresAt with
  | none => simp [hE]
  | some t => simp [hE]

theorem sweepRecord_idem (now : Nat) (f : FileRec) :
    sweepRecord now (sweepRecord now f) = sweepRecord now f := by
  cases hC : sweepCond now f with
  | false => simp [sweepRecord, hC]
  | true =>
    have h2 : sweepCond now { f with status := Status.expired } = false := by
      simp [sweepCond]
    simp [sweepRecord, hC, h2]

/-! ### Concrete records for witnesses -/

/-- Identity standing in for the external bcrypt hash in witnesses. -/
def hashId : String → String := fun s => s

/-- String equality standing in for the external bcrypt compare in
witnesses. -/
def eqCmp : String → String → Bool := fun a b => a == b

def o50 : Origin := { now := 50, ip := "ip", country := "US", userAgent := "ua" }

/-- An active, unexpired (until 100), not password-protected record with
quota 1 and no downloads yet. -/
def baseRec : FileRec :=
  { name := "f.txt", size := 10, path := "k1", createdAt := 0,
    expiresIn := "24h", expiresAt := some 100,
    passwordProtected := false, passwordHash := none,
    downloads := 0, maxDownloads := 1, status := .active,
    fileType := "Text", uploadedBy := "ip", isPublic := true,
    downloadHistory := [],
    shareStats := { totalViews := 0, uniqueVisitors := 0, peakDownloads := 0 } }

/-! ### Claims -/

/-- C1: Quota invariant.  Every record created by the upload operation
(`downloads = 0`, `maxDownloads` the positive default 50) and mutated
only by sequentially executed download, share-page, and sweep operations
satisfies `downloads ≤ maxDownloads` in every reachable state; a
redemption whose quota check is reached and passes leaves
`downloads ≤ maxDownloads`; and a redemption reaching the quota check on
a record with `downloads ≥ maxDownloads` fails with the quota error
without incrementing. -/
theorem C1_quota_invariant :
    (∀ f : FileRec, Reachable f → f.downloads ≤ f.maxDownloads) ∧
    (∀ (cmp : String → String → Bool) (cp : Bool) (o : Origin)
        (pw : Option String) (f : FileRec),
      isPastExpiry o.now f = false → f.status = Status.active →
      f.downloads < f.maxDownloads →
      (redeem cmp cp o pw f).record.downloads ≤
        (redeem cmp cp o pw f).record.maxDownloads) ∧
    (∀ (cmp : String → String → Bool) (cp : Bool) (o : Origin)
        (pw : Option String) (f : FileRec),
      isPastExpiry o.now f = false → f.status = Status.active →
      f.maxDownloads ≤ f.downloads →
      (redeem cmp cp o pw f).outcome =
          Except.error DownloadError.quotaExceeded ∧
        (redeem cmp cp o pw f).record.downloads = f.downloads) := by
  refine ⟨?_, ?_, ?_⟩
  · intro f h
    induction h with
    | upload now name size path expiresIn password hashFn fileType isPublic ip =>
      show (0 : Nat) ≤ 50
      omega
    | redeemStep cmp cp o pw f hr ih =>
      rw [redeem_maxDownloads]
      rcases redeem_record_shape cmp cp o pw f with h | h | ⟨hlt, h⟩
      · rw [h]; exact ih
      · rw [h]; exact ih
      · rw [h]; show f.downloads + 1 ≤ f.maxDownloads; omega
    | shareStep now f hr ih =>
      rw [sharePage_downloads, sharePage_maxDownloads]; exact ih
    | sweepStep now f hr ih =>
      rw [sweepRecord_downloads, sweepRecord_maxDownloads]; exact ih
  · intro cmp cp o pw f h1 h2 h3
    rw [redeem_maxDownloads]
    rcases redeem_record_shape cmp cp o pw f with h | h | ⟨hlt, h⟩
    · rw [h]; omega
    · rw [h]; show f.downloads ≤ f.maxDownloads; omega
    · rw [h]; show f.downloads + 1 ≤ f.maxDownloads; omega
  · intro cmp cp o pw f h1 h2 h3
    unfold redeem
    simp [h1, h2, h3]

theorem C1_quota_invariant_witness :
    (mkUpload 0 "a" 1 "k" "24h" none hashId "Text" true "ip").downloads ≤
      (mkUpload 0 "a" 1 "k" "24h" none hashId "Text" true "ip").maxDownloads ∧
    (redeem eqCmp true o50 none baseRec).record.downloads ≤
      (redeem eqCmp true o50 none baseRec).record.maxDownloads ∧
    ((redeem eqCmp true o50 none { baseRec with downloads := 1 }).outcome =
        Except.error DownloadError.quotaExceeded ∧
      (redeem eqCmp true o50 none { baseRec with downloads := 1 }).record.downloads =
        ({ baseRec with downloads := 1 } : FileRec).downloads) :=
  ⟨C1_quota_invariant.1 _
      (Reachable.upload 0 "a" 1 "k" "24h" none hashId "Text" true "ip"),
    C1_quota_invariant.2.1 eqCmp true o50 none baseRec (by decide) (by decide)
      (by decide),
    C1_quota_invariant.2.2 eqCmp true o50 none { baseRec with downloads := 1 }
      (by decide) (by decide) (by decide)⟩

/-- C2: the code's unguarded read-modify-write (the documented race the
spec requires the redesign to fix): on a link one redemption short of its
quota, two concurrent redemptions that both read the stored record before
either save both succeed — not one success and one `QuotaExceeded` — and
the final stored record counts only one download. -/
theorem C2_race_two_successes :
    baseRec.maxDownloads - baseRec.downloads = 1 ∧
    (raceBothReads eqCmp true o50 o50 none none baseRec).1 =
      Except.ok "k1" ∧
    (raceBothReads eqCmp true o50 o50 none none baseRec).2.1 =
      Except.ok "k1" ∧
    (raceBothReads eqCmp true o50 o50 none none baseRec).2.2.downloads = 1 := by
  decide

/-- C3 counterexample: a redemption that succeeds and consumes the last
unit of quota (`downloadCount` becomes `maxDownloads`) leaves the
persisted record with `status = active`, not `expired`. -/
theorem C3_counterexample :
    (redeem eqCmp true o50 none baseRec).outcome = Except.ok "k1" ∧
    (redeem eqCmp true o50 none baseRec).record.downloads =
      (redeem eqCmp true o50 none baseRec).record.maxDownloads ∧
    (redeem eqCmp true o50 none baseRec).record.status = Status.active ∧
    (redeem eqCmp true o50 none baseRec).record.status ≠ Status.expired := by
  decide

/-- C3 amended: a successful redemption whose increment makes
`downloadCount` equal `maxDownloads` leaves the persisted record still
`active`; the transition to `expired` happens only on a subsequent
redemption attempt, whose quota check fails with `QuotaExceeded` and
persists `status = expired`. -/
theorem C3_amended (cmp : String → String → Bool) (o : Origin)
    (pw : Option String) (f : FileRec)
    (h1 : isPastExpiry o.now f = false) (h2 : f.status = Status.active)
    (hq : f.downloads + 1 = f.maxDownloads)
    (h4 : authorize cmp pw f = Except.ok ()) :
    (redeem cmp true o pw f).outcome = Except.ok f.path ∧
    (redeem cmp true o pw f).record.downloads =
      (redeem cmp true o pw f).record.maxDownloads ∧
    (redeem cmp true o pw f).record.status = Status.active ∧
    (∀ (cmp2 : String → String → Bool) (cp2 : Bool) (o2 : Origin)
        (pw2 : Option String),
      isPastExpiry o2.now (redeem cmp true o pw f).record = false →
      (redeem cmp2 cp2 o2 pw2 (redeem cmp true o pw f).record).outcome =
          Except.error DownloadError.quotaExceeded ∧
        (redeem cmp2 cp2 o2 pw2 (redeem cmp true o pw f).record).record.status =
          Status.expired) := by
  have hlt : ¬ (f.maxDownloads ≤ f.downloads) := by omega
  have hr : redeem cmp true o pw f =
      { record := commitRecord o f, outcome := Except.ok f.path } := by
    unfold redeem
    simp [h1, h2, hlt, h4]
  rw [hr]
  refine ⟨rfl, ?_, h2, ?_⟩
  · show f.downloads + 1 = f.maxDownloads
    exact hq
  · intro cmp2 cp2 o2 pw2 hpe2
    have hst : (commitRecord o f).status = Status.active := h2
    have hqq : (commitRecord o f).maxDownloads ≤ (commitRecord o f).downloads := by
      show f.maxDownloads ≤ f.downloads + 1
      omega
    unfold redeem
    simp [hpe2, hst, hqq]

theorem C3_amended_witness :
    (redeem eqCmp true o50 none baseRec).outcome = Except.ok "k1" ∧
    (redeem eqCmp true o50 none baseRec).record.status = Status.active ∧
    (redeem eqCmp true o50 none
        (redeem eqCmp true o50 none baseRec).record).outcome =
      Except.error DownloadError.quotaExceeded ∧
    (redeem eqCmp true o50 none
        (redeem eqCmp true o50 none baseRec).record).record.status =
      Status.expired := by
  have h := C3_amended eqCmp o50 none baseRec (by decide) (by decide) (by decide)
    (by decide)
  have h2 := h.2.2.2 eqCmp true o50 none (by decide)
  exact ⟨h.1, h.2.2.1, h2.1, h2.2⟩

/-- C4 counterexample: the code's expiry guard is strict
(`new Date() > file.expiresAt`); a redemption at exactly
`now = expiresAt` (so `now ≥ expiresAt` as the claim has it) does not
fail with `Expired` — on an otherwise healthy record it succeeds and the
status stays `active`. -/
theorem C4_counterexample :
    (redeem eqCmp true o50 none { baseRec with expiresAt := some 50 }).outcome =
      Except.ok "k1" ∧
    (redeem eqCmp true o50 none { baseRec with expiresAt := some 50 }).outcome ≠
      Except.error DownloadError.expired ∧
    (redeem eqCmp true o50 none
        { baseRec with expiresAt := some 50 }).record.status ≠
      Status.expired := by
  decide

/-- C4 amended: for every record with `expiresAt` set and every
redemption at `now` strictly past it (`now > expiresAt`), the redemption
fails with the `Expired` error and the persisted record is the prior one
with `status` transitioned to `expired` — regardless of remaining quota,
password, or prior status. -/
theorem C4_amended (cmp : String → String → Bool) (cp : Bool) (o : Origin)
    (pw : Option String) (f : FileRec) (t : Nat)
    (he : f.expiresAt = some t) (hlt : t < o.now) :
    (redeem cmp cp o pw f).outcome = Except.error DownloadError.expired ∧
    (redeem cmp cp o pw f).record = { f with status := Status.expired } := by
  have hpe : isPastExpiry o.now f = true := by
    unfold isPastExpiry
    rw [he]
    exact decide_eq_true hlt
  unfold redeem
  simp [hpe]

theorem C4_amended_witness :
    (redeem eqCmp true o50 none { baseRec with expiresAt := some 10 }).outcome =
      Except.error DownloadError.expired ∧
    (redeem eqCmp true o50 none { baseRec with expiresAt := some 10 }).record =
      { ({ baseRec with expiresAt := some 10 } : FileRec) with
          status := Status.expired } :=
  C4_amended eqCmp true o50 none { baseRec with expiresAt := some 10 } 10 rfl
    (by decide)

/-- C8: Access-log/counter coupling.  In every state reachable from
creation, the length of `downloadHistory` equals `downloads`; a download
call either leaves both untouched or appends exactly one entry together
with exactly one increment; and neither the share page nor the sweep
appends to or truncates the log or changes the counter. -/
theorem C8_log_counter_coupling :
    (∀ f : FileRec, Reachable f → f.downloadHistory.length = f.downloads) ∧
    (∀ (cmp : String → String → Bool) (cp : Bool) (o : Origin)
        (pw : Option String) (f : FileRec),
      ((redeem cmp cp o pw f).record.downloads = f.downloads ∧
        (redeem cmp cp o pw f).record.downloadHistory = f.downloadHistory) ∨
      ((redeem cmp cp o pw f).record.downloads = f.downloads + 1 ∧
        (redeem cmp cp o pw f).record.downloadHistory =
          f.downloadHistory ++
            [{ downloadedAt := o.now, ip := o.ip, country := o.country,
               userAgent := o.userAgent }])) ∧
    (∀ (now : Nat) (f : FileRec),
      (sharePage now f).downloads = f.downloads ∧
        (sharePage now f).downloadHistory = f.downloadHistory) ∧
    (∀ (now : Nat) (f : FileRec),
      (sweepRecord now f).downloads = f.downloads ∧
        (sweepRecord now f).downloadHistory = f.downloadHistory) := by
  refine ⟨?_, ?_, ?_, ?_⟩
  · intro f h
    induction h with
    | upload now name size path expiresIn password hashFn fileType isPublic ip =>
      rfl
    | redeemStep cmp cp o pw f hr ih =>
      rcases redeem_record_shape cmp cp o pw f with h | h | ⟨hlt, h⟩
      · rw [h]; exact ih
      · rw [h]; exact ih
      · rw [h]
        show (f.downloadHistory ++ [_]).length = f.downloads + 1
        rw [List.length_append, ih]
        rfl
    | shareStep now f hr ih =>
      rw [sharePage_downloads, sharePage_downloadHistory]; exact ih
    | sweepStep now f hr ih =>
      rw [sweepRecord_downloads, sweepRecord_downloadHistory]; exact ih
  · intro cmp cp o pw f
    rcases redeem_record_shape cmp cp o pw f with h | h | ⟨hlt, h⟩
    · exact Or.inl ⟨by rw [h], by rw [h]⟩
    · exact Or.inl ⟨by rw [h], by rw [h]⟩
    · exact Or.inr ⟨by rw [h]; rfl, by rw [h]; rfl⟩
  · intro now f
    exact ⟨sharePage_downloads now f, sharePage_downloadHistory now f⟩
  · intro now f
    exact ⟨sweepRecord_downloads now f, sweepRecord_downloadHistory now f⟩

theorem C8_log_counter_coupling_witness :
    (mkUpload 0 "a" 1 "k" "24h" none hashId "Text" true "ip").downloadHistory.length =
      (mkUpload 0 "a" 1 "k" "24h" none hashId "Text" true "ip").downloads :=
  C8_log_counter_coupling.1 _
    (Reachable.upload 0 "a" 1 "k" "24h" none hashId "Text" true "ip")

/-- C5: Unauthorized frame.  On an active, unexpired, under-quota record
that is password-protected (stored hash present), a redemption with a
missing password (absent or the falsy empty string) or a password the
verifier rejects fails with `Unauthorized` and performs no write: the
persisted record is exactly the prior one, every field included. -/
theorem C5_unauthorized_frame (cmp : String → String → Bool) (o : Origin)
    (cp : Bool) (pw : Option String) (f : FileRec) (hs : String)
    (h1 : isPastExpiry o.now f = false) (h2 : f.status = Status.active)
    (h3 : f.downloads < f.maxDownloads)
    (h4 : f.passwordProtected = true) (h5 : f.passwordHash = some hs)
    (h6 : pw = none ∨ pw = some "" ∨
      ∃ p, pw = some p ∧ p ≠ "" ∧ cmp p hs = false) :
    (redeem cmp cp o pw f).outcome =
        Except.error DownloadError.unauthorized ∧
      (redeem cmp cp o pw f).record = f := by
  have hlt : ¬ (f.maxDownloads ≤ f.downloads) := by omega
  have ha : authorize cmp pw f = Except.error DownloadError.unauthorized := by
    unfold authorize
    rw [h4]
    rcases h6 with rfl | rfl | ⟨p, rfl, hp, hc⟩
    · simp
    · simp
    · simp [hp, h5, hc]
  unfold redeem
  simp [h1, h2, hlt, ha]

theorem C5_unauthorized_frame_witness :
    (redeem eqCmp true o50 (some "wrong")
        { baseRec with passwordProtected := true,
                       passwordHash := some "secret" }).outcome =
      Except.error DownloadError.unauthorized ∧
    (redeem eqCmp true o50 (some "wrong")
        { baseRec with passwordProtected := true,
                       passwordHash := some "secret" }).record =
      { baseRec with passwordProtected := true,
                     passwordHash := some "secret" } :=
  C5_unauthorized_frame eqCmp o50 true (some "wrong")
    { baseRec with passwordProtected := true, passwordHash := some "secret" }
    "secret" (by decide) rfl (by decide) rfl rfl
    (Or.inr (Or.inr ⟨"wrong", rfl, by decide, by decide⟩))

/-- A duration-unit character is not a digit, so the regex never
backtracks into a shorter amount. -/
theorem isUnit_not_digit (c : Char) (h : isUnit c = true) :
    c.isDigit = false := by
  unfold isUnit at h
  simp only [Bool.or_eq_true, decide_eq_true_eq] at h
  rcases h with ((rfl | rfl) | rfl) | rfl <;> decide

/-- A digit run followed directly by a unit character is matched by the
scan with the full run as the amount, whatever digits were already
accumulated. -/
theorem scanToken_digits_append (u : Char) (hu : isUnit u = true) :
    ∀ (ds acc : List Char), ds ≠ [] → (∀ c ∈ ds, c.isDigit = true) →
      scanToken acc (ds ++ [u]) = some (digitsToNat (acc ++ ds), u) := by
  intro ds
  induction ds with
  | nil => intro acc h _; exact absurd rfl h
  | cons d ds ih =>
    intro acc _ hdig
    have hd : d.isDigit = true := hdig d (List.mem_cons_self d ds)
    show scanToken acc (d :: (ds ++ [u])) = _
    rw [scanToken, hd]
    simp only [if_true]
    rcases List.eq_nil_or_concat ds with hds | _
    · subst hds
      show scanToken (acc ++ [d]) [u] = _
      rw [scanToken, isUnit_not_digit u hu]
      simp [hu, List.isEmpty_iff]
    · have hne : ds ≠ [] := by
        rename_i hcat
        rcases hcat with ⟨l, a, rfl⟩
        simp
      rw [ih (acc ++ [d]) hne (fun c hc => hdig c (List.mem_cons_of_mem d hc))]
      rw [List.append_assoc]
      rfl

/-- C6: Lenient expiry parsing.  An expiry specification in which the
duration-token pattern `(\d+)([hdwm])` never matches makes the upload
still succeed, with `expiresAt` the clock plus the 24-hour fallback; and
a specification that is exactly `<amount><unit>` yields the clock plus
amount times the unit's millisecond length. -/
theorem C6_expiry_fallback :
    (∀ (now : Nat) (name : String) (size : Nat) (path : String) (s : String)
        (password : Option String) (hashFn : String → String) (ft : String)
        (pub : Bool) (ip : String),
      scanToken [] s.data = none →
      (mkUpload now name size path s password hashFn ft pub ip).expiresAt =
        some (now + 24 * 60 * 60 * 1000)) ∧
    (∀ (now : Nat) (ds : List Char) (u : Char), ds ≠ [] →
      (∀ c ∈ ds, c.isDigit = true) → isUnit u = true →
      calculateExpirationDate now (String.mk (ds ++ [u])) =
        now + digitsToNat ds * unitMs u) := by
  constructor
  · intro now name size path s password hashFn ft pub ip h
    have hc : calculateExpirationDate now s = now + 24 * 60 * 60 * 1000 := by
      unfold calculateExpirationDate
      rw [h]
    show some (calculateExpirationDate now s) = _
    rw [hc]
  · intro now ds u hne hdig hu
    unfold calculateExpirationDate
    show (match scanToken [] (ds ++ [u]) with
      | none => now + 24 * 60 * 60 * 1000
      | some (amount, c) => now + amount * unitMs c) = _
    rw [scanToken_digits_append u hu ds [] hne hdig]
    rfl

theorem C6_expiry_fallback_witness :
    scanToken [] ("soon".data) = none ∧
    (mkUpload 5 "a" 1 "k" "soon" none hashId "Text" true "ip").expiresAt =
      some (5 + 24 * 60 * 60 * 1000) ∧
    calculateExpirationDate 7 (String.mk (['1', '2'] ++ ['h'])) =
      7 + digitsToNat ['1', '2'] * unitMs 'h' :=
  ⟨by decide,
    C6_expiry_fallback.1 5 "a" 1 "k" "soon" none hashId "Text" true "ip"
      (by decide),
    C6_expiry_fallback.2 7 ['1', '2'] 'h' (by decide) (by decide) (by decide)⟩

/-- C7: Sweep selectivity and idempotence.  One sweep run at `now`
transitions to `expired` exactly the records that are `active` with an
`expiresAt` at or before `now`, leaves every other record unchanged, and
running the sweep twice at the same time gives the same store as running
it once. -/
theorem C7_sweep :
    (∀ (now : Nat) (f : FileRec),
      (f.status = Status.active ∧ ∃ t, f.expiresAt = some t ∧ t ≤ now) →
      sweepRecord now f = { f with status := Status.expired }) ∧
    (∀ (now : Nat) (f : FileRec),
      ¬ (f.status = Status.active ∧ ∃ t, f.expiresAt = some t ∧ t ≤ now) →
      sweepRecord now f = f) ∧
    (∀ (now : Nat) (l : List FileRec),
      sweepOnce now (sweepOnce now l) = sweepOnce now l) := by
  refine ⟨?_, ?_, ?_⟩
  · intro now f h
    unfold sweepRecord
    rw [(sweepCond_iff now f).mpr h]
    rfl
  · intro now f h
    cases hC : sweepCond now f with
    | false => simp [sweepRecord, hC]
    | true => exact absurd ((sweepCond_iff now f).mp hC) h
  · intro now l
    induction l with
    | nil => rfl
    | cons a l ih =>
      show sweepRecord now (sweepRecord now a) :: sweepOnce now (sweepOnce now l) =
        sweepRecord now a :: sweepOnce now l
      rw [sweepRecord_idem, ih]

theorem C7_sweep_witness :
    sweepRecord 50 { baseRec with expiresAt := some 40 } =
      { ({ baseRec with expiresAt := some 40 } : FileRec) with
          status := Status.expired } ∧
    sweepRecord 50 baseRec = baseRec ∧
    sweepOnce 50 (sweepOnce 50 [baseRec, { baseRec with expiresAt := some 40 }]) =
      sweepOnce 50 [baseRec, { baseRec with expiresAt := some 40 }] :=
  ⟨C7_sweep.1 50 { baseRec with expiresAt := some 40 }
      ⟨rfl, 40, rfl, by omega⟩,
    C7_sweep.2.1 50 baseRec
      (fun h => by
        rcases h with ⟨_, t, ht, hle⟩
        have ht' : some (100 : Nat) = some t := ht
        injection ht' with ht''
        omega),
    C7_sweep.2.2 50 [baseRec, { baseRec with expiresAt := some 40 }]⟩

/-- C9: the content-missing failure is not atomic.  When lookup, expiry,
status, quota, and password checks all pass but the backing file is
absent from disk, the endpoint answers with the file-missing error only
after saving the record with the incremented counter, the appended
history entry, and the bumped share statistics — the failed redemption
still consumes one unit of quota. -/
theorem C9_integrity_after_commit (cmp : String → String → Bool) (o : Origin)
    (pw : Option String) (f : FileRec)
    (h1 : isPastExpiry o.now f = false) (h2 : f.status = Status.active)
    (h3 : f.downloads < f.maxDownloads)
    (h4 : authorize cmp pw f = Except.ok ()) :
    (redeem cmp false o pw f).outcome =
        Except.error DownloadError.fileMissing ∧
      (redeem cmp false o pw f).record = commitRecord o f ∧
      (redeem cmp false o pw f).record.downloads = f.downloads + 1 ∧
      (redeem cmp false o pw f).record.downloadHistory =
        f.downloadHistory ++
          [{ downloadedAt := o.now, ip := o.ip, country := o.country,
             userAgent := o.userAgent }] ∧
      (redeem cmp false o pw f).record.shareStats.totalViews =
        f.shareStats.totalViews + 1 := by
  have hlt : ¬ (f.maxDownloads ≤ f.downloads) := by omega
  have hr : redeem cmp false o pw f =
      { record := commitRecord o f,
        outcome := Except.error DownloadError.fileMissing } := by
    unfold redeem
    simp [h1, h2, hlt, h4]
  rw [hr]
  exact ⟨rfl, rfl, rfl, rfl, rfl⟩

theorem C9_integrity_after_commit_witness :
    (redeem eqCmp false o50 none baseRec).outcome =
        Except.error DownloadError.fileMissing ∧
      (redeem eqCmp false o50 none baseRec).record.downloads =
        baseRec.downloads + 1 := by
  have h := C9_integrity_after_commit eqCmp o50 none baseRec (by decide) rfl
    (by decide) rfl
  exact ⟨h.1, h.2.2.1⟩

/-- C10: a record without `expiresAt` is never treated as expired: a
redemption on it can never fail with the `Expired` error, the sweep never
selects it (it is left exactly as it was), and whenever its status is
`active`, its quota is not exhausted, and the password gate passes, a
redemption succeeds at any time whatsoever — the link is perpetual until
quota exhaustion or an administrative status change. -/
theorem C10_no_expiry_perpetual (cmp : String → String → Bool) (cp : Bool)
    (o : Origin) (pw : Option String) (now : Nat) (f : FileRec)
    (he : f.expiresAt = none) :
    (redeem cmp cp o pw f).outcome ≠ Except.error DownloadError.expired ∧
    sweepRecord now f = f ∧
    (f.status = Status.active → f.downloads < f.maxDownloads →
      authorize cmp pw f = Except.ok () →
      (redeem cmp true o pw f).outcome = Except.ok f.path) := by
  have hpe : isPastExpiry o.now f = false := by
    unfold isPastExpiry
    rw [he]
  refine ⟨?_, ?_, ?_⟩
  · rcases authorize_cases cmp pw f with hc | hc | hc <;>
      · unfold redeem
        rw [hpe]
        simp only [Bool.false_eq_true, if_false, hc]
        split
        · simp
        · split
          · simp
          · cases cp <;> simp
  · have hC : sweepCond now f = false := by
      unfold sweepCond
      rw [he]
      simp
    simp [sweepRecord, hC]
  · intro h2 h3 h4
    have hlt : ¬ (f.maxDownloads ≤ f.downloads) := by omega
    unfold redeem
    simp [hpe, h2, hlt, h4]

theorem C10_no_expiry_perpetual_witness :
    (redeem eqCmp true o50 none { baseRec with expiresAt := none }).outcome ≠
      Except.error DownloadError.expired ∧
    sweepRecord 1000000 { baseRec with expiresAt := none } =
      { baseRec with expiresAt := none } ∧
    (redeem eqCmp true o50 none { baseRec with expiresAt := none }).outcome =
      Except.ok "k1" := by
  have h := C10_no_expiry_perpetual eqCmp true o50 none 1000000
    { baseRec with expiresAt := none } rfl
  exact ⟨h.1, h.2.1, h.2.2 rfl (by decide) rfl⟩

end SIF
